import Mathlib

/-!
Verification of the request-gating pipeline of the code-challenge CRUD backend.

The definitions below are shallow embeddings of the TypeScript sources:
  - problem5/src/services/auth.service.ts        (AuthService: login, verifyToken, parseExpirationTime)
  - problem5/src/middleware/auth.middleware.ts   (authenticate)
  - problem5/src/middleware/rbac.middleware.ts   (requireRole, requireOwnershipOrAdmin)
  - problem5/src/middleware/validate.middleware.ts (validate, sanitizeBody, sanitizeObject)
  - problem5/src/middleware/rateLimiter.middleware.ts (apiLimiter, authLimiter, createResourceLimiter)
  - problem5/src/services/resource.service.ts    (ResourceService: getById, update, delete)
  - problem5/src/utils/errors.ts                 (AppError hierarchy)
  - problem4 sum_to_n_a / sum_to_n_b / sum_to_n_c

External collaborators (the jsonwebtoken library, the zod validator, the
express-rate-limit counter store and the Prisma role enum) are not part of
src/; where a claim depends on them they are modelled from the spec, with a
doc comment saying so.

Express middleware is modelled by explicit result values: a middleware that
calls next() without an error is `.ok`, a middleware that forwards an error
(next(error)) is `.error e`; in the `.error` case the downstream handler is
never invoked and no user is attached to the request.
-/

/-! ## Error taxonomy (problem5/src/utils/errors.ts)

Each subclass of AppError carries a fixed status code, a message, and an
optional list of field errors (empty for the classes that do not take one). -/

structure AppError where
  statusCode : Nat
  message : String
  errors : List String
deriving DecidableEq, Repr

def BadRequestError (message : String) : AppError := ⟨400, message, []⟩

def UnauthorizedError (message : String) : AppError := ⟨401, message, []⟩

def ForbiddenError (message : String) : AppError := ⟨403, message, []⟩

def NotFoundError (message : String) : AppError := ⟨404, message, []⟩

def ConflictError (message : String) : AppError := ⟨409, message, []⟩

def ValidationError (message : String) (errors : List String) : AppError := ⟨422, message, errors⟩

def RateLimitError (message : String) : AppError := ⟨429, message, []⟩

/-! ## Roles and principals

Modelled from the spec: the Prisma `Role` enum (the prisma schema file is not
under src/; the spec data model lists roles GUEST, USER, ADMIN and the code
references `Role.USER` and `Role.ADMIN`). -/

inductive Role where
  | GUEST
  | USER
  | ADMIN
deriving DecidableEq, Repr

def roleName : Role → String
  | .GUEST => "GUEST"
  | .USER => "USER"
  | .ADMIN => "ADMIN"

/-- A stored user record (the Principal of the spec): id, email, name, bcrypt
password hash, role and the active flag. -/
structure User where
  id : String
  email : String
  name : String
  password : String
  role : Role
  isActive : Bool
deriving DecidableEq, Repr

/-- The Principal Store consumed by the gating pipeline
(user.repository: findById / findByEmail over the users table). -/
structure UserStore where
  users : List User
deriving Repr

def UserStore.findById (s : UserStore) (id : String) : Option User :=
  s.users.find? (fun u => u.id == id)

def UserStore.findByEmail (s : UserStore) (email : String) : Option User :=
  s.users.find? (fun u => u.email == email)

/-- The user shape attached to an authenticated request
(`req.user` in models/types.ts). -/
structure AuthUser where
  id : String
  email : String
  role : Role
  isActive : Bool
deriving DecidableEq, Repr

/-! ## Problem 4: sum_to_n (src/unnamed/part_000) -/

/-- Solution 1, the Gauss summation formula: `(n * (n + 1)) / 2`. -/
def sum_to_n_a (n : Nat) : Nat := n * (n + 1) / 2

/-- Solution 2, the iterative loop `for (let i = 1; i <= n; i++) sum += i`
starting from `sum = 0`. -/
def sum_to_n_b (n : Nat) : Nat := (List.range' 1 n).foldl (· + ·) 0

/-- Solution 3, the recursion `if (n <= 1) return n; return n + sum_to_n_c (n - 1)`. -/
def sum_to_n_c : Nat → Nat
  | 0 => 0
  | 1 => 1
  | n + 2 => (n + 2) + sum_to_n_c (n + 1)

/-! ## AuthService.parseExpirationTime (auth.service.ts, lines 147-166)

The source matches the expression against the regex `^(\d+)([smhd])$`; on a
match it converts the digits with parseInt and multiplies by the unit factor,
otherwise it returns 86400 (24 hours). -/

/-- Decimal value of a digit string, as parseInt computes it on `\d+`. -/
def digitsToNat (l : List Char) : Nat :=
  l.foldl (fun acc c => acc * 10 + (c.toNat - 48)) 0

/-- Seconds-per-unit factor of the switch on `[smhd]`; `none` for a character
the regex would not have matched. -/
def unitMultiplier : Char → Option Nat
  | 's' => some 1
  | 'm' => some 60
  | 'h' => some 3600
  | 'd' => some 86400
  | _ => none

def parseExpirationTime (expiration : String) : Nat :=
  let cs := expiration.toList
  let digits := cs.dropLast
  match cs.getLast? with
  | none => 86400
  | some unit =>
    match unitMultiplier unit with
    | none => 86400
    | some mult =>
      if !digits.isEmpty && digits.all Char.isDigit then digitsToNat digits * mult
      else 86400

/-- The shape accepted by the regex `^(\d+)([smhd])$`: at least one digit
followed by exactly one unit character. -/
def ttlWellFormed (s : String) : Bool :=
  let cs := s.toList
  (!cs.dropLast.isEmpty && cs.dropLast.all Char.isDigit) &&
    (match cs.getLast? with
     | some u => (unitMultiplier u).isSome
     | none => false)

/-! ## InputGuard sanitizer (validate.middleware.ts, sanitizeBody / sanitizeObject)

Request bodies are arbitrary JSON values. -/

inductive JsonValue where
  | str (s : String)
  | num (n : Int)
  | bool (b : Bool)
  | null
  | arr (items : List JsonValue)
  | obj (fields : List (String × JsonValue))
deriving Repr

/-- `key.startsWith('$')` of the source, computed on the character list. -/
def keyStartsWithDollar (key : String) : Bool :=
  match key.toList with
  | c :: _ => c == '$'
  | [] => false

/-- `key.includes('..')` of the source: some adjacent pair of dots. -/
def listHasDotDot : List Char → Bool
  | [] => false
  | [_] => false
  | c1 :: c2 :: rest => (c1 == '.' && c2 == '.') || listHasDotDot (c2 :: rest)

def keyHasDotDot (key : String) : Bool := listHasDotDot key.toList

/-- The removal test of sanitizeObject:
`key.startsWith('$') || key.includes('..')`. -/
def isDangerousKey (key : String) : Bool :=
  keyStartsWithDollar key || keyHasDotDot key

mutual
/-- sanitizeObject of validate.middleware.ts: walks Object.entries, skips an
entry whose key starts with a dollar or contains two adjacent dots, and
recurses into the remaining values. -/
def sanitizeObject : List (String × JsonValue) → List (String × JsonValue)
  | [] => []
  | (key, value) :: rest =>
    if isDangerousKey key then sanitizeObject rest
    else (key, sanitizeEntryValue value) :: sanitizeObject rest

/-- The value branch of the sanitizeObject loop: a non-array object recurses,
an array maps its items, every other value is copied unchanged (null included,
because `value && typeof value === 'object'` is false for null). -/
def sanitizeEntryValue : JsonValue → JsonValue
  | .obj fields => .obj (sanitizeObject fields)
  | .arr items => .arr (sanitizeArrayItems items)
  | v => v

def sanitizeArrayItems : List JsonValue → List JsonValue
  | [] => []
  | item :: rest => sanitizeArrayItem item :: sanitizeArrayItems rest

/-- `typeof item === 'object' && item !== null ? sanitizeObject(item) : item`.
When the item is itself an array, sanitizeObject iterates Object.entries of
the array, whose keys are the decimal indices, and returns a plain object. -/
def sanitizeArrayItem : JsonValue → JsonValue
  | .obj fields => .obj (sanitizeObject fields)
  | .arr items => .obj (sanitizeIndexed 0 items)
  | v => v

/-- sanitizeObject applied to Object.entries of an array: entry i has the key
`String(i)` and the item as its value, and goes through the same key test and
value branch as any other entry. -/
def sanitizeIndexed (i : Nat) : List JsonValue → List (String × JsonValue)
  | [] => []
  | item :: rest =>
    if isDangerousKey (Nat.repr i) then sanitizeIndexed (i + 1) rest
    else (Nat.repr i, sanitizeEntryValue item) :: sanitizeIndexed (i + 1) rest
end

/-- Object.entries of an array: index keys paired with the items. -/
def withIndexKeys : Nat → List JsonValue → List (String × JsonValue)
  | _, [] => []
  | i, item :: rest => (Nat.repr i, item) :: withIndexKeys (i + 1) rest

/-- sanitizeBody of validate.middleware.ts:
`if (req.body && typeof req.body === 'object') req.body = sanitizeObject(req.body)`.
Objects and arrays both satisfy the test (an array body comes back as an
index-keyed object); every other body is left alone. -/
def sanitizeBody : JsonValue → JsonValue
  | .obj fields => .obj (sanitizeObject fields)
  | .arr items => .obj (sanitizeIndexed 0 items)
  | v => v

mutual
/-- No key anywhere inside the fields of an object is dangerous. -/
def fieldsClean : List (String × JsonValue) → Bool
  | [] => true
  | (k, v) :: rest => !isDangerousKey k && valueClean v && fieldsClean rest

def valueClean : JsonValue → Bool
  | .obj fields => fieldsClean fields
  | .arr items => itemsClean items
  | _ => true

def itemsClean : List JsonValue → Bool
  | [] => true
  | v :: rest => valueClean v && itemsClean rest
end

/-! ## TokenService (auth.service.ts, AuthService.verifyToken, lines 94-107)

The jsonwebtoken library is not under src/.
Modelled from the spec: a token is a signed payload {principalId, email, role,
expiresAt}; verification is a pure function of (payload, secret, clock);
it fails with TokenExpired when now is past expiresAt, with TokenInvalid when
the signature does not match or the payload is malformed, and generically for
any other decode error. -/

/-- The JwtPayload of models/types.ts ({userId, email, role}) together with
the expiry claim the library stamps on it. -/
structure TokenPayload where
  userId : String
  email : String
  role : Role
  exp : Nat
deriving DecidableEq, Repr

/-- Deterministic signing with a server-held secret: any change to the secret
or to the payload changes the string. -/
def sign (secret : String) (p : TokenPayload) : String :=
  secret ++ "|" ++ p.userId ++ "|" ++ p.email ++ "|" ++ roleName p.role ++ "|" ++ Nat.repr p.exp

/-- A bearer token as received on the wire: either not decodable at all, or a
payload with an attached signature (possibly produced with the wrong secret). -/
inductive Token where
  | malformed (raw : String)
  | signed (payload : TokenPayload) (signature : String)
deriving DecidableEq, Repr

/-- The error classes thrown by jwt.verify that AuthService.verifyToken
distinguishes: TokenExpiredError, JsonWebTokenError, and anything else. -/
inductive JwtError where
  | expired
  | invalid
  | other
deriving DecidableEq, Repr

/-- Modelled from the spec: jwt.verify checks the signature, then the expiry
(fails with TokenExpired when now is past expiresAt), and rejects a payload it
cannot decode as invalid. -/
def jwtVerify (secret : String) (now : Nat) : Token → Except JwtError TokenPayload
  | .malformed _ => .error .invalid
  | .signed p sig =>
    if sig ≠ sign secret p then .error .invalid
    else if p.exp < now then .error .expired
    else .ok p

/-- The catch block of AuthService.verifyToken: each jwt error class becomes
an UnauthorizedError with a fixed message, never the internal detail. -/
def verifyTokenError : JwtError → AppError
  | .expired => UnauthorizedError "Token has expired"
  | .invalid => UnauthorizedError "Invalid token"
  | .other => UnauthorizedError "Token verification failed"

/-- AuthService.verifyToken: return the decoded payload, or translate the
library error through the catch block. -/
def verifyToken (secret : String) (now : Nat) (token : Token) : Except AppError TokenPayload :=
  match jwtVerify secret now token with
  | .ok p => .ok p
  | .error e => .error (verifyTokenError e)

/-! ## authenticate (auth.middleware.ts, lines 286-325 of the controller bundle) -/

/-- The Authorization header of a request: absent, present but not a Bearer
scheme, or a Bearer token (the substring after the prefix, already decoded
into the Token model). -/
inductive AuthHeader where
  | missing
  | notBearer (raw : String)
  | bearer (token : Token)
deriving Repr

/-- The authenticate middleware: extract the bearer token, verify it, then
re-resolve the principal from the store by the decoded userId; fail
Unauthorized when the principal is missing or inactive, otherwise attach the
user and call the downstream handler. -/
def authenticate (secret : String) (now : Nat) (store : UserStore) :
    AuthHeader → Except AppError AuthUser
  | .missing => .error (UnauthorizedError "No token provided")
  | .notBearer _ => .error (UnauthorizedError "No token provided")
  | .bearer token =>
    match verifyToken secret now token with
    | .error e => .error e
    | .ok decoded =>
      match store.findById decoded.userId with
      | none => .error (UnauthorizedError "User not found")
      | some user =>
        if !user.isActive then .error (UnauthorizedError "Account is inactive")
        else .ok ⟨user.id, user.email, user.role, user.isActive⟩

/-! ## RBAC middleware (rbac.middleware.ts) -/

/-- requireRole(...allowedRoles): Unauthorized without a user on the request,
Forbidden when the user role is not in the list, next() otherwise. -/
def requireRole (allowedRoles : List Role) : Option AuthUser → Except AppError Unit
  | none => .error (UnauthorizedError "Authentication required")
  | some u =>
    if !(allowedRoles.contains u.role) then
      .error (ForbiddenError
        ("Access denied. Required role(s): " ++ String.intercalate ", " (allowedRoles.map roleName)))
    else .ok ()

def requireAdmin : Option AuthUser → Except AppError Unit := requireRole [Role.ADMIN]

def requireUserOrAdmin : Option AuthUser → Except AppError Unit :=
  requireRole [Role.USER, Role.ADMIN]

/-- requireOwnershipOrAdmin (rbac.middleware.ts, lines 46-76): Unauthorized
without a user; an ADMIN short-circuits to next(); for every other user the
body reads the resource id and the user id but performs no check and also
calls next() — the actual ownership comparison is done in the service layer. -/
def requireOwnershipOrAdmin : Option AuthUser → Except AppError Unit
  | none => .error (UnauthorizedError "Authentication required")
  | some u =>
    if u.role == Role.ADMIN then .ok ()
    else .ok ()

/-! ## ResourceService (resource.service.ts)

The Prisma resource repository is external; the service consults it through
findById and performs the ownership comparison itself. Only the fields the
gating logic reads are modelled. -/

structure Resource where
  id : String
  ownerId : String
  title : String
deriving DecidableEq, Repr

structure ResourceStore where
  resources : List Resource
deriving Repr

def ResourceStore.findById (s : ResourceStore) (id : String) : Option Resource :=
  s.resources.find? (fun r => r.id == id)

/-- ResourceService.getById (lines 39-52): NotFound when the record is absent,
Forbidden when the caller is neither ADMIN nor the owner, the resource
otherwise. -/
def ResourceService.getById (store : ResourceStore) (id userId : String) (userRole : Role) :
    Except AppError Resource :=
  match store.findById id with
  | none => .error (NotFoundError "Resource not found")
  | some resource =>
    if userRole ≠ Role.ADMIN ∧ resource.ownerId ≠ userId then
      .error (ForbiddenError "You do not have permission to view this resource")
    else .ok resource

/-- ResourceService.update: same lookup and ownership gate; the repository
write itself is external, the returned value is the authorized record. -/
def ResourceService.update (store : ResourceStore) (id userId : String) (userRole : Role) :
    Except AppError Resource :=
  match store.findById id with
  | none => .error (NotFoundError "Resource not found")
  | some resource =>
    if userRole ≠ Role.ADMIN ∧ resource.ownerId ≠ userId then
      .error (ForbiddenError "You do not have permission to update this resource")
    else .ok resource

/-- ResourceService.delete: same lookup and ownership gate before the
repository delete. -/
def ResourceService.deleteById (store : ResourceStore) (id userId : String) (userRole : Role) :
    Except AppError Unit :=
  match store.findById id with
  | none => .error (NotFoundError "Resource not found")
  | some resource =>
    if userRole ≠ Role.ADMIN ∧ resource.ownerId ≠ userId then
      .error (ForbiddenError "You do not have permission to delete this resource")
    else .ok ()

/-- The single-resource read as routed: the rbac gate runs first (phase one),
the service comparison second (phase two). -/
def getResourcePipeline (store : ResourceStore) (u : AuthUser) (id : String) :
    Except AppError Resource :=
  match requireOwnershipOrAdmin (some u) with
  | .error e => .error e
  | .ok _ => ResourceService.getById store id u.id u.role

/-! ## AuthService.login (auth.service.ts, lines 66-89)

bcrypt.compare is the external PasswordVault; it is passed in as the
comparison function. The issued token pair is out of scope here; the success
value carries the identifying fields of generateLoginResponse. -/

structure LoginOk where
  userId : String
  email : String
  role : Role
deriving DecidableEq, Repr

def login (compare : String → String → Bool) (store : UserStore) (email password : String) :
    Except AppError LoginOk :=
  match store.findByEmail email with
  | none => .error (UnauthorizedError "Invalid credentials")
  | some user =>
    if !user.isActive then .error (UnauthorizedError "Account is inactive")
    else if !(compare password user.password) then .error (UnauthorizedError "Invalid credentials")
    else .ok ⟨user.id, user.email, user.role⟩

/-! ## validate middleware (validate.middleware.ts, lines 10-37)

Modelled from the spec: the zod library (not under src/) checks a payload
against a schema and reports every violated field as an issue {path, message};
the middleware joins each issue into a `path: message` string and wraps the
whole list in one ValidationError. The parse result is discarded, so the
payload that reaches the handler is the one that came in. -/

structure FieldRule (P : Type) where
  path : String
  message : String
  check : P → Bool

/-- All issues of a parse: one `(path, message)` pair for every rule the
payload violates, in schema order. -/
def zodIssues {P : Type} (rules : List (FieldRule P)) (payload : P) : List (String × String) :=
  rules.filterMap (fun r => if r.check payload then none else some (r.path, r.message))

/-- The validate middleware: next() with the untouched payload when the schema
accepts it, otherwise one ValidationError carrying every `path: message` entry. -/
def validate {P : Type} (rules : List (FieldRule P)) (payload : P) : Except AppError P :=
  let issues := zodIssues rules payload
  if issues.isEmpty then .ok payload
  else .error (ValidationError "Validation failed" (issues.map (fun e => e.1 ++ ": " ++ e.2)))

/-! ## Rate limiting (rateLimiter.middleware.ts)

The express-rate-limit library is not under src/. Modelled from the spec:
one bucket per key; on each request, if there is no bucket or the window has
elapsed, the bucket restarts at count 1 and the request is allowed; otherwise
the count is incremented and the request is denied (status 429) when the
count exceeds the maximum; a denial never decrements the count. With
skipSuccessfulRequests, a counted request whose response reports success is
uncounted again after the response. -/

structure RateLimitConfig where
  windowMs : Nat
  maxRequests : Nat
  skipSuccessfulRequests : Bool
deriving DecidableEq, Repr

structure Bucket where
  windowStart : Nat
  count : Nat
deriving DecidableEq, Repr

/-- One request at time `now` against the bucket of its key: the new bucket
and whether the request is allowed through. -/
def rateLimitStep (cfg : RateLimitConfig) (bucket? : Option Bucket) (now : Nat) :
    Bucket × Bool :=
  match bucket? with
  | none => (⟨now, 1⟩, true)
  | some b =>
    if b.windowStart + cfg.windowMs ≤ now then (⟨now, 1⟩, true)
    else (⟨b.windowStart, b.count + 1⟩, b.count + 1 ≤ cfg.maxRequests)

/-- After the response: a successful allowed request is uncounted when the
policy skips successful requests. -/
def rateLimitFinish (cfg : RateLimitConfig) (b : Bucket) (allowed success : Bool) : Bucket :=
  if allowed && success && cfg.skipSuccessfulRequests then ⟨b.windowStart, b.count - 1⟩
  else b

/-- Run a sequence of (arrival time, response success) requests of one key
through the limiter, collecting the allow/deny decision of each. -/
def rateLimitRun (cfg : RateLimitConfig) : Option Bucket → List (Nat × Bool) → List Bool
  | _, [] => []
  | bucket?, (t, success) :: rest =>
    let step := rateLimitStep cfg bucket? t
    let b := rateLimitFinish cfg step.1 step.2 success
    step.2 :: rateLimitRun cfg (some b) rest

/-- The handler of a denied request responds with status 429. -/
def rateLimitStatus (allowed : Bool) : Option Nat :=
  if allowed then none else some 429

/-- apiLimiter: windowMs 15 * 60 * 1000, max 100. -/
def apiLimiterConfig : RateLimitConfig := ⟨15 * 60 * 1000, 100, false⟩

/-- authLimiter: windowMs 15 * 60 * 1000, max 5, skipSuccessfulRequests. -/
def authLimiterConfig : RateLimitConfig := ⟨15 * 60 * 1000, 5, true⟩

/-- createResourceLimiter: windowMs 60 * 60 * 1000, max 50. -/
def createResourceLimiterConfig : RateLimitConfig := ⟨60 * 60 * 1000, 50, false⟩

/-! ## Size measures for the sanitizer proofs -/

mutual
def jsize : JsonValue → Nat
  | .arr items => 1 + lsize items
  | .obj fields => 1 + fsize fields
  | _ => 1

def lsize : List JsonValue → Nat
  | [] => 0
  | v :: rest => 1 + jsize v + lsize rest

def fsize : List (String × JsonValue) → Nat
  | [] => 0
  | (_, v) :: rest => 1 + jsize v + fsize rest
end

/-! # Theorems -/

/-! ### C10: the three sum-to-n implementations agree -/

theorem sum_to_n_c_succ (n : Nat) : sum_to_n_c (n + 1) = (n + 1) + sum_to_n_c n := by
  cases n with
  | zero => rfl
  | succ m => rfl

theorem two_mul_sum_to_n_c (n : Nat) : 2 * sum_to_n_c n = n * (n + 1) := by
  induction n with
  | zero => rfl
  | succ k ih =>
    rw [sum_to_n_c_succ, Nat.mul_add, ih]
    ring

theorem sum_to_n_b_succ (n : Nat) : sum_to_n_b (n + 1) = sum_to_n_b n + (n + 1) := by
  unfold sum_to_n_b
  rw [List.range'_concat, List.foldl_append]
  simp [List.foldl]
  omega

theorem sum_to_n_b_eq_c (n : Nat) : sum_to_n_b n = sum_to_n_c n := by
  induction n with
  | zero => rfl
  | succ k ih => rw [sum_to_n_b_succ, sum_to_n_c_succ, ih]; omega

/-- C10: for every non-negative integer n the Gauss formula, the iterative
loop and the recursion return the same value, namely n * (n + 1) / 2; the
recursion is total on Nat by construction. -/
theorem C10_sum_to_n_equivalent (n : Nat) :
    sum_to_n_a n = n * (n + 1) / 2 ∧
    sum_to_n_b n = n * (n + 1) / 2 ∧
    sum_to_n_c n = n * (n + 1) / 2 := by
  have h2 := two_mul_sum_to_n_c n
  have hc : sum_to_n_c n = n * (n + 1) / 2 := by omega
  exact ⟨rfl, by rw [sum_to_n_b_eq_c, hc], hc⟩

/-! ### C9: the TTL duration parser -/

theorem parseExpirationTime_wellFormed (ds : List Char) (u : Char) (m : Nat)
    (hne : ds ≠ []) (hdig : ds.all Char.isDigit = true) (hm : unitMultiplier u = some m) :
    parseExpirationTime (String.mk (ds ++ [u])) = digitsToNat ds * m := by
  have hempty : ds.isEmpty = false := by cases ds with
    | nil => exact absurd rfl hne
    | cons c rest => rfl
  simp [parseExpirationTime, String.toList, hm, hempty, hdig]

/-- C9: every expression of the form digits followed by s, m, h or d parses to
value, value * 60, value * 3600, value * 86400 seconds respectively, and every
string the regex rejects parses to 86400. -/
theorem C9_parseExpirationTime_spec :
    (∀ ds : List Char, ds ≠ [] → ds.all Char.isDigit = true →
      parseExpirationTime (String.mk (ds ++ ['s'])) = digitsToNat ds ∧
      parseExpirationTime (String.mk (ds ++ ['m'])) = digitsToNat ds * 60 ∧
      parseExpirationTime (String.mk (ds ++ ['h'])) = digitsToNat ds * 3600 ∧
      parseExpirationTime (String.mk (ds ++ ['d'])) = digitsToNat ds * 86400) ∧
    (∀ s : String, ttlWellFormed s = false → parseExpirationTime s = 86400) := by
  constructor
  · intro ds hne hdig
    refine ⟨?_, ?_, ?_, ?_⟩
    · have h := parseExpirationTime_wellFormed ds 's' 1 hne hdig rfl
      simpa using h
    · exact parseExpirationTime_wellFormed ds 'm' 60 hne hdig rfl
    · exact parseExpirationTime_wellFormed ds 'h' 3600 hne hdig rfl
    · exact parseExpirationTime_wellFormed ds 'd' 86400 hne hdig rfl
  · intro s h
    unfold ttlWellFormed at h
    unfold parseExpirationTime
    simp only [String.toList] at h ⊢
    cases hlast : s.data.getLast? with
    | none => simp [hlast]
    | some u =>
      cases hmul : unitMultiplier u with
      | none => simp [hlast, hmul]
      | some m =>
        simp only [hlast, hmul] at h ⊢
        simp at h ⊢
        intro h1 h2
        obtain ⟨x, hx, hxd⟩ := h h1
        exact absurd (h2 x hx) (by simp [hxd])

/-- Witness for C9 at the concrete configuration value 24h and a malformed
string. -/
theorem C9_witness :
    parseExpirationTime (String.mk (['2', '4'] ++ ['h'])) = digitsToNat ['2', '4'] * 3600 :=
  (C9_parseExpirationTime_spec.1 ['2', '4'] (by decide) (by decide)).2.2.1

/-! ### C3: the body sanitizer -/

theorem digitChar_isDigit (m : Nat) (h : m < 10) : (Nat.digitChar m).isDigit = true := by
  interval_cases m <;> decide

theorem toDigitsCore_digits :
    ∀ (f n : Nat) (l : List Char), (∀ c ∈ l, c.isDigit = true) →
      ∀ c ∈ Nat.toDigitsCore 10 f n l, c.isDigit = true := by
  intro f
  induction f with
  | zero =>
    intro n l hl c hc
    rw [Nat.toDigitsCore] at hc
    exact hl c hc
  | succ f ih =>
    intro n l hl c hc
    rw [Nat.toDigitsCore] at hc
    by_cases h10 : n / 10 = 0
    · rw [if_pos h10] at hc
      rcases List.mem_cons.mp hc with h | h
      · subst h; exact digitChar_isDigit _ (Nat.mod_lt _ (by omega))
      · exact hl c h
    · rw [if_neg h10] at hc
      refine ih _ _ ?_ c hc
      intro x hx
      rcases List.mem_cons.mp hx with h | h
      · subst h; exact digitChar_isDigit _ (Nat.mod_lt _ (by omega))
      · exact hl x h

theorem repr_digits (n : Nat) : ∀ c ∈ (Nat.repr n).toList, c.isDigit = true := by
  intro c hc
  have he : (Nat.repr n).toList = Nat.toDigitsCore 10 (n + 1) n [] := rfl
  rw [he] at hc
  exact toDigitsCore_digits _ _ [] (by simp) c hc

theorem isDigit_beq_false (c x : Char) (hx : x.isDigit = false) (h : c.isDigit = true) :
    (c == x) = false := by
  cases hbe : c == x
  · rfl
  · rw [beq_iff_eq] at hbe
    subst hbe
    rw [h] at hx
    exact absurd hx (by simp)

theorem listHasDotDot_eq_false (l : List Char) (h : ∀ c ∈ l, (c == '.') = false) :
    listHasDotDot l = false := by
  induction l with
  | nil => rfl
  | cons c rest ih =>
    cases rest with
    | nil => rfl
    | cons c2 rest2 =>
      have h1 : (c == '.') = false := h c (by simp)
      have ih2 := ih (fun x hx => h x (List.mem_cons_of_mem _ hx))
      simp [listHasDotDot, h1, ih2]

theorem digit_key_not_dangerous (key : String) (h : ∀ c ∈ key.toList, c.isDigit = true) :
    isDangerousKey key = false := by
  have hdots : keyHasDotDot key = false :=
    listHasDotDot_eq_false _ (fun c hc => isDigit_beq_false c '.' (by decide) (h c hc))
  have hdollar : keyStartsWithDollar key = false := by
    unfold keyStartsWithDollar
    cases hl : key.toList with
    | nil => rfl
    | cons c rest =>
      rw [hl] at h
      exact isDigit_beq_false c '$' (by decide) (h c (List.mem_cons_self _ _))
  simp [isDangerousKey, hdollar, hdots]

/-- Index keys produced by Object.entries on an array are decimal numerals
and are never removed. -/
theorem nat_repr_not_dangerous (i : Nat) : isDangerousKey (Nat.repr i) = false :=
  digit_key_not_dangerous _ (repr_digits i)

/-- sanitizeObject applied to the index-keyed entries of an array is exactly
sanitizeIndexed. -/
theorem sanitizeIndexed_eq_sanitizeObject (items : List JsonValue) :
    ∀ i, sanitizeIndexed i items = sanitizeObject (withIndexKeys i items) := by
  induction items with
  | nil => intro i; rfl
  | cons item rest ih =>
    intro i
    simp [sanitizeIndexed, withIndexKeys, sanitizeObject, ih]

theorem jsize_pos (v : JsonValue) : 1 ≤ jsize v := by
  cases v <;> simp [jsize]

theorem sanitize_clean_strong : ∀ n : Nat,
    (∀ fs, fsize fs ≤ n → fieldsClean (sanitizeObject fs) = true) ∧
    (∀ v, jsize v ≤ n → valueClean (sanitizeEntryValue v) = true) ∧
    (∀ l, lsize l ≤ n → itemsClean (sanitizeArrayItems l) = true) ∧
    (∀ v, jsize v ≤ n → valueClean (sanitizeArrayItem v) = true) ∧
    (∀ i l, lsize l ≤ n → fieldsClean (sanitizeIndexed i l) = true) := by
  intro n
  induction n using Nat.strong_induction_on with
  | _ n ih =>
    refine ⟨?_, ?_, ?_, ?_, ?_⟩
    · intro fs hfs
      cases fs with
      | nil => simp [sanitizeObject, fieldsClean]
      | cons p rest =>
        obtain ⟨k, v⟩ := p
        simp [fsize] at hfs
        have hv : jsize v < n := by omega
        have hr : fsize rest < n := by have := jsize_pos v; omega
        cases hk : isDangerousKey k with
        | true => simpa [sanitizeObject, hk] using (ih _ hr).1 rest (Nat.le_refl _)
        | false =>
          have h1 := (ih _ hv).2.1 v (Nat.le_refl _)
          have h2 := (ih _ hr).1 rest (Nat.le_refl _)
          simp [sanitizeObject, hk, fieldsClean, h1, h2]
    · intro v hv
      cases v with
      | obj fields =>
        simp [jsize] at hv
        have h1 := (ih _ (by omega : fsize fields < n)).1 fields (Nat.le_refl _)
        simpa [sanitizeEntryValue, valueClean] using h1
      | arr items =>
        simp [jsize] at hv
        have h1 := (ih _ (by omega : lsize items < n)).2.2.1 items (Nat.le_refl _)
        simpa [sanitizeEntryValue, valueClean] using h1
      | str s => simp [sanitizeEntryValue, valueClean]
      | num m => simp [sanitizeEntryValue, valueClean]
      | bool b => simp [sanitizeEntryValue, valueClean]
      | null => simp [sanitizeEntryValue, valueClean]
    · intro l hl
      cases l with
      | nil => simp [sanitizeArrayItems, itemsClean]
      | cons v rest =>
        simp [lsize] at hl
        have hv : jsize v < n := by omega
        have hr : lsize rest < n := by have := jsize_pos v; omega
        have h1 := (ih _ hv).2.2.2.1 v (Nat.le_refl _)
        have h2 := (ih _ hr).2.2.1 rest (Nat.le_refl _)
        simp [sanitizeArrayItems, itemsClean, h1, h2]
    · intro v hv
      cases v with
      | obj fields =>
        simp [jsize] at hv
        have h1 := (ih _ (by omega : fsize fields < n)).1 fields (Nat.le_refl _)
        simpa [sanitizeArrayItem, valueClean] using h1
      | arr items =>
        simp [jsize] at hv
        have h1 := (ih _ (by omega : lsize items < n)).2.2.2.2 0 items (Nat.le_refl _)
        simpa [sanitizeArrayItem, valueClean] using h1
      | str s => simp [sanitizeArrayItem, valueClean]
      | num m => simp [sanitizeArrayItem, valueClean]
      | bool b => simp [sanitizeArrayItem, valueClean]
      | null => simp [sanitizeArrayItem, valueClean]
    · intro i l hl
      cases l with
      | nil => simp [sanitizeIndexed, fieldsClean]
      | cons item rest =>
        simp [lsize] at hl
        have hv : jsize item < n := by omega
        have hr : lsize rest < n := by have := jsize_pos item; omega
        have h2 := (ih _ hr).2.2.2.2 (i + 1) rest (Nat.le_refl _)
        cases hk : isDangerousKey (Nat.repr i) with
        | true => simpa [sanitizeIndexed, hk] using h2
        | false =>
          have h1 := (ih _ hv).2.1 item (Nat.le_refl _)
          simp [sanitizeIndexed, hk, fieldsClean, h1, h2]

/-- C3: the sanitizer removes every key that starts with a dollar or contains
two adjacent dots at every nesting depth (the output is clean everywhere,
arrays of objects included), keeps every entry whose key is harmless with its
sanitized value, passes every scalar value through unchanged, and on the body
of Scenario F keeps the value of key name and strips the key bio-dot-dot. -/
theorem C3_sanitizeBody_spec :
    (∀ body, valueClean (sanitizeBody body) = true) ∧
    (∀ fields key value, (key, value) ∈ fields → isDangerousKey key = false →
      (key, sanitizeEntryValue value) ∈ sanitizeObject fields) ∧
    ((∀ s, sanitizeEntryValue (JsonValue.str s) = JsonValue.str s) ∧
     (∀ n, sanitizeEntryValue (JsonValue.num n) = JsonValue.num n) ∧
     (∀ b, sanitizeEntryValue (JsonValue.bool b) = JsonValue.bool b) ∧
     sanitizeEntryValue JsonValue.null = JsonValue.null) ∧
    sanitizeBody
        (JsonValue.obj
          [("name", JsonValue.str "$ne"), ("profile", JsonValue.obj [("bio..", JsonValue.str "x")])]) =
      JsonValue.obj [("name", JsonValue.str "$ne"), ("profile", JsonValue.obj [])] := by
  refine ⟨?_, ?_, ⟨fun s => rfl, fun n => rfl, fun b => rfl, rfl⟩, ?_⟩
  · intro body
    cases body with
    | obj fields =>
      have h1 := (sanitize_clean_strong (fsize fields)).1 fields (Nat.le_refl _)
      simpa [sanitizeBody, valueClean] using h1
    | arr items =>
      have h1 := (sanitize_clean_strong (lsize items)).2.2.2.2 0 items (Nat.le_refl _)
      simpa [sanitizeBody, valueClean] using h1
    | str s => simp [sanitizeBody, valueClean]
    | num m => simp [sanitizeBody, valueClean]
    | bool b => simp [sanitizeBody, valueClean]
    | null => simp [sanitizeBody, valueClean]
  · intro fields
    induction fields with
    | nil => intro k v h _; simp at h
    | cons p rest ih =>
      intro k v hmem hk
      obtain ⟨k0, v0⟩ := p
      rcases List.mem_cons.mp hmem with heq | htail
      · rw [Prod.mk.injEq] at heq
        obtain ⟨rfl, rfl⟩ := heq
        simp [sanitizeObject, hk]
      · cases hd : isDangerousKey k0 with
        | true => simpa [sanitizeObject, hd] using ih _ _ htail hk
        | false =>
          have h1 := ih _ _ htail hk
          simp [sanitizeObject, hd]
          right
          exact h1
  · rfl

/-- Witness for C3: a harmless key survives sanitization with its value. -/
theorem C3_witness :
    isDangerousKey "title" = false ∧
    ("title", sanitizeEntryValue (JsonValue.str "hello")) ∈
      sanitizeObject [("title", JsonValue.str "hello")] :=
  ⟨by rfl,
   C3_sanitizeBody_spec.2.1 [("title", JsonValue.str "hello")] "title" (JsonValue.str "hello")
     (by simp) (by rfl)⟩

/-! ### C4: verifyToken error taxonomy -/

/-- C4: verification yields the distinct expired 401 exactly for a correctly
signed token whose expiry has passed; a wrong signature or a malformed payload
yields the generic invalid-token 401; any other decode error maps to a fixed
generic 401; every failure is a 401 UnauthorizedError and the expired result
is distinguishable from the invalid-token result. -/
theorem C4_verifyToken_spec (secret : String) (now : Nat) (token : Token) :
    (verifyToken secret now token = .error (UnauthorizedError "Token has expired") ↔
      ∃ p, token = Token.signed p (sign secret p) ∧ p.exp < now) ∧
    (∀ p sig, token = Token.signed p sig → sig ≠ sign secret p →
      verifyToken secret now token = .error (UnauthorizedError "Invalid token")) ∧
    (∀ raw, token = Token.malformed raw →
      verifyToken secret now token = .error (UnauthorizedError "Invalid token")) ∧
    (∀ e : JwtError, (verifyTokenError e).statusCode = 401) ∧
    verifyTokenError JwtError.other = UnauthorizedError "Token verification failed" ∧
    UnauthorizedError "Token has expired" ≠ UnauthorizedError "Invalid token" := by
  refine ⟨?_, ?_, ?_, ?_, rfl, by decide⟩
  · constructor
    · intro h
      cases token with
      | malformed raw => simp [verifyToken, jwtVerify, verifyTokenError, UnauthorizedError] at h
      | signed p sig =>
        by_cases hs : sig = sign secret p
        · subst hs
          by_cases he : p.exp < now
          · exact ⟨p, rfl, he⟩
          · simp [verifyToken, jwtVerify, he] at h
        · simp [verifyToken, jwtVerify, hs, verifyTokenError, UnauthorizedError] at h
    · rintro ⟨p, rfl, he⟩
      simp [verifyToken, jwtVerify, he, verifyTokenError]
  · intro p sig hts hne
    subst hts
    simp [verifyToken, jwtVerify, hne, verifyTokenError]
  · intro raw hts
    subst hts
    rfl
  · intro e
    cases e <;> rfl

/-- Witness for C4: a correctly signed token with expiry 3 verified at time 5
is rejected as expired. -/
theorem C4_witness :
    verifyToken "s" 5
        (Token.signed ⟨"u1", "alice@example.com", Role.USER, 3⟩
          (sign "s" ⟨"u1", "alice@example.com", Role.USER, 3⟩)) =
      .error (UnauthorizedError "Token has expired") :=
  (C4_verifyToken_spec "s" 5
      (Token.signed ⟨"u1", "alice@example.com", Role.USER, 3⟩
        (sign "s" ⟨"u1", "alice@example.com", Role.USER, 3⟩))).1.mpr
    ⟨⟨"u1", "alice@example.com", Role.USER, 3⟩, rfl, by decide⟩

/-! ### C1: authenticate re-resolves the principal and fails closed -/

/-- C1: for a correctly signed, unexpired bearer token, authenticate still
looks the principal up in the store; when the principal is missing or
inactive it ends in a 401 error (the request never gets a user and the
downstream handler is never invoked), and any request that does pass
authentication corresponds to a stored, active principal. -/
theorem C1_authenticate_inactive_never_passes (secret : String) (now : Nat) (store : UserStore)
    (p : TokenPayload) (hexp : ¬ p.exp < now) :
    (store.findById p.userId = none →
      authenticate secret now store (.bearer (.signed p (sign secret p))) =
        .error (UnauthorizedError "User not found") ∧
      (UnauthorizedError "User not found").statusCode = 401) ∧
    (∀ u, store.findById p.userId = some u → u.isActive = false →
      authenticate secret now store (.bearer (.signed p (sign secret p))) =
        .error (UnauthorizedError "Account is inactive") ∧
      (UnauthorizedError "Account is inactive").statusCode = 401) ∧
    (∀ h a, authenticate secret now store h = .ok a →
      ∃ u, u ∈ store.users ∧ u.isActive = true ∧
        a = ⟨u.id, u.email, u.role, u.isActive⟩) := by
  have hver : verifyToken secret now (.signed p (sign secret p)) = .ok p := by
    simp [verifyToken, jwtVerify, hexp]
  refine ⟨?_, ?_, ?_⟩
  · intro hnone
    exact ⟨by simp [authenticate, hver, hnone], rfl⟩
  · intro u hsome hact
    exact ⟨by simp [authenticate, hver, hsome, hact], rfl⟩
  · intro h a ha
    cases h with
    | missing => simp [authenticate] at ha
    | notBearer raw => simp [authenticate] at ha
    | bearer token =>
      simp only [authenticate] at ha
      split at ha
      · exact absurd ha (by simp)
      · split at ha
        · exact absurd ha (by simp)
        · rename_i u hf
          cases hu : u.isActive with
          | false => rw [hu] at ha; simp at ha
          | true =>
            rw [hu] at ha
            simp at ha
            exact ⟨u, List.mem_of_find?_eq_some hf, hu, by rw [← ha, hu]⟩

/-- Witness for C1: a valid token of a deactivated principal is rejected with
the inactive-account 401. -/
theorem C1_witness :
    authenticate "s" 0 ⟨[⟨"u1", "alice@example.com", "Alice", "h", Role.USER, false⟩]⟩
        (.bearer (.signed ⟨"u1", "alice@example.com", Role.USER, 100⟩
          (sign "s" ⟨"u1", "alice@example.com", Role.USER, 100⟩))) =
      .error (UnauthorizedError "Account is inactive") ∧
    (UnauthorizedError "Account is inactive").statusCode = 401 :=
  (C1_authenticate_inactive_never_passes "s" 0
      ⟨[⟨"u1", "alice@example.com", "Alice", "h", Role.USER, false⟩]⟩
      ⟨"u1", "alice@example.com", Role.USER, 100⟩ (by decide)).2.1
    ⟨"u1", "alice@example.com", "Alice", "h", Role.USER, false⟩ (by rfl) rfl

/-! ### C2: ownership is enforced by the service layer, the gate only
short-circuits admins -/

/-- C2: for an existing resource, the single-resource read, update and delete
succeed exactly when the caller is an ADMIN or owns the resource and fail with
the 403 Forbidden of the service comparison for every other principal,
while the requireOwnershipOrAdmin gate lets every authenticated principal
through (its only decision is the ADMIN short-circuit). -/
theorem C2_ownership_spec (store : ResourceStore) (u : AuthUser) (id : String) (r : Resource)
    (hr : store.findById id = some r) :
    (getResourcePipeline store u id = .ok r ↔ (u.role = Role.ADMIN ∨ r.ownerId = u.id)) ∧
    (u.role ≠ Role.ADMIN → r.ownerId ≠ u.id →
      getResourcePipeline store u id =
        .error (ForbiddenError "You do not have permission to view this resource") ∧
      (ForbiddenError "You do not have permission to view this resource").statusCode = 403) ∧
    (ResourceService.update store id u.id u.role = .ok r ↔
      (u.role = Role.ADMIN ∨ r.ownerId = u.id)) ∧
    (u.role ≠ Role.ADMIN → r.ownerId ≠ u.id →
      ResourceService.update store id u.id u.role =
        .error (ForbiddenError "You do not have permission to update this resource")) ∧
    (ResourceService.deleteById store id u.id u.role = .ok () ↔
      (u.role = Role.ADMIN ∨ r.ownerId = u.id)) ∧
    (u.role ≠ Role.ADMIN → r.ownerId ≠ u.id →
      ResourceService.deleteById store id u.id u.role =
        .error (ForbiddenError "You do not have permission to delete this resource")) ∧
    (∀ v : AuthUser, requireOwnershipOrAdmin (some v) = .ok ()) := by
  have hmw : ∀ v : AuthUser, requireOwnershipOrAdmin (some v) = .ok () := by
    intro v
    cases h : (v.role == Role.ADMIN) <;> simp [requireOwnershipOrAdmin, h]
  have hpipe : getResourcePipeline store u id = ResourceService.getById store id u.id u.role := by
    simp [getResourcePipeline, hmw u]
  have key : ∀ (α : Type) (okv : α) (e : AppError),
      ((if u.role ≠ Role.ADMIN ∧ r.ownerId ≠ u.id then Except.error e else Except.ok okv) =
          Except.ok okv ↔ (u.role = Role.ADMIN ∨ r.ownerId = u.id)) ∧
      (u.role ≠ Role.ADMIN → r.ownerId ≠ u.id →
        (if u.role ≠ Role.ADMIN ∧ r.ownerId ≠ u.id then Except.error e else Except.ok okv) =
          Except.error e) := by
    intro α okv e
    constructor
    · split_ifs with h
      · simp only [reduceCtorEq, false_iff]
        tauto
      · simp only [true_iff]
        tauto
    · intro h1 h2
      rw [if_pos ⟨h1, h2⟩]
  refine ⟨?_, ?_, ?_, ?_, ?_, ?_, hmw⟩
  · rw [hpipe]
    simp only [ResourceService.getById, hr]
    exact (key _ r _).1
  · intro h1 h2
    refine ⟨?_, rfl⟩
    rw [hpipe]
    simp only [ResourceService.getById, hr]
    exact (key _ r _).2 h1 h2
  · simp only [ResourceService.update, hr]
    exact (key _ r _).1
  · intro h1 h2
    simp only [ResourceService.update, hr]
    exact (key _ r _).2 h1 h2
  · simp only [ResourceService.deleteById, hr]
    exact (key _ () _).1
  · intro h1 h2
    simp only [ResourceService.deleteById, hr]
    exact (key _ () _).2 h1 h2

/-- Witness for C2: a non-admin, non-owner principal is denied the read with
the Forbidden of the service layer. -/
theorem C2_witness :
    getResourcePipeline ⟨[⟨"r1", "owner1", "T"⟩]⟩ ⟨"u2", "bob@example.com", Role.USER, true⟩ "r1" =
      .error (ForbiddenError "You do not have permission to view this resource") ∧
    (ForbiddenError "You do not have permission to view this resource").statusCode = 403 :=
  (C2_ownership_spec ⟨[⟨"r1", "owner1", "T"⟩]⟩ ⟨"u2", "bob@example.com", Role.USER, true⟩ "r1"
      ⟨"r1", "owner1", "T"⟩ (by rfl)).2.1 (by decide) (by decide)

/-! ### C6: requireRole is a pure membership check -/

/-- C6: with a user on the request, requireRole calls the next handler exactly
when the role is a member of the allowed list and otherwise fails with the 403
Forbidden naming the required roles; in particular requireRole(ADMIN) denies a
USER and allows an ADMIN. The check takes no store argument: it reads nothing
but the role. -/
theorem C6_requireRole_spec (roles : List Role) (u : AuthUser) :
    (requireRole roles (some u) = .ok () ↔ u.role ∈ roles) ∧
    (u.role ∉ roles →
      requireRole roles (some u) =
        .error (ForbiddenError
          ("Access denied. Required role(s): " ++ String.intercalate ", " (roles.map roleName))) ∧
      (ForbiddenError
          ("Access denied. Required role(s): " ++
            String.intercalate ", " (roles.map roleName))).statusCode = 403) ∧
    (u.role = Role.USER → requireRole [Role.ADMIN] (some u) =
      .error (ForbiddenError "Access denied. Required role(s): ADMIN")) ∧
    (u.role = Role.ADMIN → requireRole [Role.ADMIN] (some u) = .ok ()) := by
  refine ⟨?_, ?_, ?_, ?_⟩
  · constructor
    · intro h
      by_cases hm : u.role ∈ roles
      · exact hm
      · simp [requireRole, hm] at h
    · intro hm
      simp [requireRole, hm]
  · intro hm
    exact ⟨by simp [requireRole, hm], rfl⟩
  · intro hrole
    simp [requireRole, hrole]
    rfl
  · intro hrole
    simp [requireRole, hrole]

/-- Witness for C6: requireRole(ADMIN) denies a USER principal. -/
theorem C6_witness :
    requireRole [Role.ADMIN] (some ⟨"u1", "alice@example.com", Role.USER, true⟩) =
      .error (ForbiddenError "Access denied. Required role(s): ADMIN") :=
  (C6_requireRole_spec [Role.ADMIN] ⟨"u1", "alice@example.com", Role.USER, true⟩).2.2.1 rfl

/-! ### C7: login failures and email disclosure -/

/-- Counterexample to C7 as stated: for a registered but deactivated
principal, a wrong-password login yields the inactive-account 401, which
differs from the unknown-email 401, so the response does reveal that this
email exists. -/
theorem C7_counterexample :
    login (fun _ _ => false)
        ⟨[⟨"u1", "alice@example.com", "Alice", "hash", Role.USER, false⟩]⟩
        "alice@example.com" "guess" = .error (UnauthorizedError "Account is inactive") ∧
    login (fun _ _ => false)
        ⟨[⟨"u1", "alice@example.com", "Alice", "hash", Role.USER, false⟩]⟩
        "nobody@example.com" "guess" = .error (UnauthorizedError "Invalid credentials") ∧
    UnauthorizedError "Account is inactive" ≠ UnauthorizedError "Invalid credentials" :=
  ⟨rfl, rfl, by decide⟩

/-- C7 (amended): when the registered principal is active, a wrong-password
login and an unknown-email login produce the same UnauthorizedError with the
same 401 status and the same message. -/
theorem C7_login_indistinguishable (compare : String → String → Bool) (store : UserStore)
    (e1 p1 e2 p2 : String) (u : User)
    (h1 : store.findByEmail e1 = none) (h2 : store.findByEmail e2 = some u)
    (hact : u.isActive = true) (hpw : compare p2 u.password = false) :
    login compare store e1 p1 = .error (UnauthorizedError "Invalid credentials") ∧
    login compare store e2 p2 = .error (UnauthorizedError "Invalid credentials") ∧
    (UnauthorizedError "Invalid credentials").statusCode = 401 := by
  refine ⟨?_, ?_, rfl⟩
  · simp [login, h1]
  · simp [login, h2, hact, hpw]

/-- Witness for C7: an active principal with a wrong password and an unknown
email give identical failures. -/
theorem C7_witness :
    login (fun _ _ => false)
        ⟨[⟨"u1", "alice@example.com", "Alice", "hash", Role.USER, true⟩]⟩
        "nobody@example.com" "x" = .error (UnauthorizedError "Invalid credentials") ∧
    login (fun _ _ => false)
        ⟨[⟨"u1", "alice@example.com", "Alice", "hash", Role.USER, true⟩]⟩
        "alice@example.com" "y" = .error (UnauthorizedError "Invalid credentials") ∧
    (UnauthorizedError "Invalid credentials").statusCode = 401 :=
  C7_login_indistinguishable (fun _ _ => false)
    ⟨[⟨"u1", "alice@example.com", "Alice", "hash", Role.USER, true⟩]⟩
    "nobody@example.com" "x" "alice@example.com" "y"
    ⟨"u1", "alice@example.com", "Alice", "hash", Role.USER, true⟩
    (by rfl) (by rfl) rfl rfl

/-! ### C8: validation accumulates every field error -/

/-- C8: when a payload violates at least one rule of the schema, validation
produces a single 422 ValidationFailed result whose error list has a
`field: message` entry for every violated rule (not only the first), and it
never touches the payload: on success the downstream handler receives exactly
the payload that came in. -/
theorem C8_validate_spec (P : Type) (rules : List (FieldRule P)) (payload : P) :
    (zodIssues rules payload = [] → validate rules payload = .ok payload) ∧
    (zodIssues rules payload ≠ [] →
      ∃ e, validate rules payload = .error e ∧ e.statusCode = 422 ∧
        e.message = "Validation failed" ∧
        (∀ r ∈ rules, r.check payload = false → (r.path ++ ": " ++ r.message) ∈ e.errors) ∧
        e.errors = (zodIssues rules payload).map (fun q => q.1 ++ ": " ++ q.2)) := by
  constructor
  · intro h
    simp [validate, h]
  · intro h
    have hE : (zodIssues rules payload).isEmpty = false := by
      cases hE : (zodIssues rules payload).isEmpty
      · rfl
      · exact absurd (List.isEmpty_iff.mp hE) h
    refine ⟨ValidationError "Validation failed"
        ((zodIssues rules payload).map (fun q => q.1 ++ ": " ++ q.2)),
      ?_, rfl, rfl, ?_, ?_⟩
    · simp [validate, hE]
    · intro r hr hcheck
      have hmem : (r.path, r.message) ∈ zodIssues rules payload := by
        unfold zodIssues
        exact List.mem_filterMap.mpr ⟨r, hr, by simp [hcheck]⟩
      exact List.mem_map.mpr ⟨(r.path, r.message), hmem, rfl⟩
    · rfl

/-- Witness for C8: a payload violating two rules gets both entries in one
422 result. -/
theorem C8_witness :
    ∃ e, validate
        [⟨"body.title", "Title must be at least 3 characters", fun n => decide (2 < n)⟩,
         ⟨"body.tags", "Maximum 10 tags allowed", fun n => decide (n ≥ 1)⟩] (0 : Nat) =
      .error e ∧ e.statusCode = 422 ∧ e.message = "Validation failed" ∧
      (∀ r ∈ [(⟨"body.title", "Title must be at least 3 characters",
          fun n => decide (2 < n)⟩ : FieldRule Nat),
         ⟨"body.tags", "Maximum 10 tags allowed", fun n => decide (n ≥ 1)⟩],
        r.check 0 = false → (r.path ++ ": " ++ r.message) ∈ e.errors) ∧
      e.errors = (zodIssues
        [⟨"body.title", "Title must be at least 3 characters", fun n => decide (2 < n)⟩,
         ⟨"body.tags", "Maximum 10 tags allowed", fun n => decide (n ≥ 1)⟩] 0).map
          (fun q => q.1 ++ ": " ++ q.2) :=
  (C8_validate_spec Nat
    [⟨"body.title", "Title must be at least 3 characters", fun n => decide (2 < n)⟩,
     ⟨"body.tags", "Maximum 10 tags allowed", fun n => decide (n ≥ 1)⟩] 0).2 (by decide)

/-! ### C5: the rate limiter -/

theorem expected_cons (max k len : Nat) :
    (List.range (len + 1)).map (fun i => decide (k + i + 1 ≤ max)) =
      decide (k + 1 ≤ max) :: (List.range len).map (fun i => decide (k + 1 + i + 1 ≤ max)) := by
  rw [List.range_succ_eq_map, List.map_cons, List.map_map]
  have h2 : List.map ((fun i => decide (k + i + 1 ≤ max)) ∘ Nat.succ) (List.range len) =
      List.map (fun i => decide (k + 1 + i + 1 ≤ max)) (List.range len) := by
    refine List.map_congr_left ?_
    intro i hi
    simp only [Function.comp_apply, decide_eq_decide]
    constructor <;> (intro; omega)
  rw [h2]

/-- Inside one window every request increments the counter (a denial does not
roll it back), so starting from a bucket holding count k the i-th further
request is allowed exactly when k + i + 1 is still within the maximum. -/
theorem rateLimitRun_in_window (cfg : RateLimitConfig) (t0 : Nat) :
    ∀ (reqs : List (Nat × Bool)) (k : Nat),
      (∀ q ∈ reqs, q.1 < t0 + cfg.windowMs ∧
        (cfg.skipSuccessfulRequests = false ∨ q.2 = false)) →
      rateLimitRun cfg (some ⟨t0, k⟩) reqs =
        (List.range reqs.length).map (fun i => decide (k + i + 1 ≤ cfg.maxRequests)) := by
  intro reqs
  induction reqs with
  | nil => intro k h; rfl
  | cons q rest ih =>
    intro k h
    obtain ⟨t, success⟩ := q
    obtain ⟨ht, hcount⟩ := h _ (List.mem_cons_self _ _)
    have hrest : ∀ q ∈ rest, q.1 < t0 + cfg.windowMs ∧
        (cfg.skipSuccessfulRequests = false ∨ q.2 = false) :=
      fun q hq => h q (List.mem_cons_of_mem _ hq)
    have ht' : t < t0 + cfg.windowMs := ht
    have hnr : ¬ (t0 + cfg.windowMs ≤ t) := by omega
    have hcount' : cfg.skipSuccessfulRequests = false ∨ success = false := hcount
    have hstep : rateLimitStep cfg (some ⟨t0, k⟩) t =
        (⟨t0, k + 1⟩, decide (k + 1 ≤ cfg.maxRequests)) := by
      simp [rateLimitStep, hnr]
    have hfin : rateLimitFinish cfg ⟨t0, k + 1⟩ (decide (k + 1 ≤ cfg.maxRequests)) success =
        ⟨t0, k + 1⟩ := by
      rcases hcount' with hs | hs <;> simp [rateLimitFinish, hs]
    simp only [rateLimitRun, hstep, hfin]
    rw [ih (k + 1) hrest, List.length_cons, expected_cons]

/-- C5: from a fresh key, with every response counted, the first request of a
window is allowed, the i-th request within the window is allowed exactly while
the count stays within the maximum (so the first N pass and the (N+1)-th is
denied); a request after the window has elapsed resets and is allowed; under
the auth policy (window 15 min, max 5) six failed logins inside one window get
[allow x5, deny], and a denial is answered with status 429. -/
theorem C5_rateLimiter_spec :
    (∀ (cfg : RateLimitConfig) (t0 : Nat) (s0 : Bool) (rest : List (Nat × Bool)),
      0 < cfg.maxRequests →
      (cfg.skipSuccessfulRequests = false ∨ s0 = false) →
      (∀ q ∈ rest, q.1 < t0 + cfg.windowMs ∧
        (cfg.skipSuccessfulRequests = false ∨ q.2 = false)) →
      rateLimitRun cfg none ((t0, s0) :: rest) =
        (List.range (rest.length + 1)).map (fun i => decide (i + 1 ≤ cfg.maxRequests))) ∧
    (∀ (cfg : RateLimitConfig) (b : Bucket) (t : Nat),
      b.windowStart + cfg.windowMs ≤ t → (rateLimitStep cfg (some b) t).2 = true) ∧
    rateLimitRun authLimiterConfig none
        [(0, false), (60000, false), (120000, false), (180000, false), (240000, false),
         (300000, false)] =
      [true, true, true, true, true, false] ∧
    rateLimitStatus false = some 429 ∧
    authLimiterConfig.maxRequests = 5 ∧
    authLimiterConfig.windowMs = 15 * 60 * 1000 := by
  refine ⟨?_, ?_, by decide, rfl, rfl, rfl⟩
  · intro cfg t0 s0 rest hmax h0 hrest
    have hfin : rateLimitFinish cfg ⟨t0, 1⟩ true s0 = ⟨t0, 1⟩ := by
      rcases h0 with hs | hs <;> simp [rateLimitFinish, hs]
    have hstep : rateLimitStep cfg none t0 = (⟨t0, 1⟩, true) := rfl
    simp only [rateLimitRun, hstep, hfin]
    rw [rateLimitRun_in_window cfg t0 rest 1 hrest]
    have hm : (List.range (rest.length + 1)).map (fun i => decide (i + 1 ≤ cfg.maxRequests)) =
        (List.range (rest.length + 1)).map (fun i => decide (0 + i + 1 ≤ cfg.maxRequests)) :=
      List.map_congr_left (fun i _ => by norm_num)
    rw [hm, expected_cons]
    have hhead : true = decide (0 + 1 ≤ cfg.maxRequests) := (decide_eq_true (by omega)).symm
    rw [← hhead]
  · intro cfg b t hwin
    simp [rateLimitStep, hwin]

/-- Witness for C5: three all-counted requests in one window under a policy
with max 2 follow the allow-allow-deny pattern of the general theorem. -/
theorem C5_witness :
    rateLimitRun ⟨1000, 2, false⟩ none ((0, true) :: [(10, true), (20, true)]) =
      (List.range ([(10, true), (20, true)].length + 1)).map
        (fun i => decide (i + 1 ≤ (⟨1000, 2, false⟩ : RateLimitConfig).maxRequests)) :=
  C5_rateLimiter_spec.1 ⟨1000, 2, false⟩ 0 true [(10, true), (20, true)] (by decide)
    (Or.inl rfl) (by decide)
